import Mathlib

/-!
Verification of the HSUAIClip clip-extraction pipeline (`clipper/` package).

The definitions below are a shallow embedding of the Python sources:

* `clipper/utils.py` — class `UtilsProgress`: seek/duration arithmetic and
  command construction of `create_clip_from_stream`, the throttled progress
  printer `_print_progress`, the percent computation of
  `_execute_with_stderr_parse`, and the memoized encoder-argument selection
  `get_clip_creation_args` / `_get_video_encoder_args`.
* `clipper/engine.py` — `CreateClipEngine.run_clipsengine`: the cache-probe
  planning loop, the per-task retry loop, and the final merge of cached and
  newly created files.
* `clipper/modules/downloader.py` — the `Downloader` class boundary (its
  constructor signature matters for the engine's control flow).

Numeric quantities that Python holds as floats (seconds, percentages) are
modelled as exact rationals `ℚ`; transcoder command lines are modelled as
lists of tokens where a token is either a literal string or a numeric value
(the Python code renders numeric tokens with `f"{x:.6f}"`).  Filesystems are
modelled as partial maps from file name to file size in bytes.  External
effects (the transcoder process, the network) enter only through explicit
oracle parameters.
-/

namespace HSUAIClip

/-- Constant `UtilsProgress.CLIP_END_PADDING_SECONDS = 0.15` (utils.py line 66). -/
def CLIP_END_PADDING_SECONDS : ℚ := 15 / 100

/-- Constant `UtilsProgress.SEEK_BUFFER_SECONDS = 5.0` (utils.py line 67). -/
def SEEK_BUFFER_SECONDS : ℚ := 5

/-- `duration = (end - start) + self.CLIP_END_PADDING_SECONDS` (utils.py line 274). -/
def clipDuration (start endTime : ℚ) : ℚ :=
  (endTime - start) + CLIP_END_PADDING_SECONDS

/-- `fast_seek_time = max(0, start - self.SEEK_BUFFER_SECONDS)` (utils.py line 283). -/
def fast_seek_time (start : ℚ) : ℚ :=
  max 0 (start - SEEK_BUFFER_SECONDS)

/-- `accurate_seek_offset = self.SEEK_BUFFER_SECONDS if start > self.SEEK_BUFFER_SECONDS
else start` (utils.py line 284). -/
def accurate_seek_offset (start : ℚ) : ℚ :=
  if start > SEEK_BUFFER_SECONDS then SEEK_BUFFER_SECONDS else start

/-- One token of a transcoder command line: a literal string or a numeric value
(Python renders the numeric seek/duration tokens via `f"{x:.6f}"`). -/
inductive Tok where
  | str (s : String)
  | num (q : ℚ)
deriving DecidableEq, Repr

/-- Python truthiness of an `Optional[str]`: `None` and the empty string are falsy. -/
def strTruthy : Option String → Bool
  | none => false
  | some s => s ≠ ""

/-- The command list built by `UtilsProgress.create_clip_from_stream`
(utils.py lines 286-299), after its early-return guard: coarse seek before each
input, one extra seeked input plus `-map` tokens when a separate audio URL is
truthy, then accurate seek, explicit duration, encoder args, `-y`, output. -/
def buildClipCmd (videoUrl : String) (audioUrl : Option String)
    (start endTime : ℚ) (ffmpegArgs : List String) (outputPath : String) : List Tok :=
  [Tok.str "ffmpeg", Tok.str "-nostats",
   Tok.str "-ss", Tok.num (fast_seek_time start), Tok.str "-i", Tok.str videoUrl]
  ++ (if strTruthy audioUrl then
        [Tok.str "-ss", Tok.num (fast_seek_time start),
         Tok.str "-i", Tok.str (audioUrl.getD "")]
      else [])
  ++ [Tok.str "-ss", Tok.num (accurate_seek_offset start),
      Tok.str "-t", Tok.num (clipDuration start endTime)]
  ++ (if strTruthy audioUrl then
        [Tok.str "-map", Tok.str "0:v:0", Tok.str "-map", Tok.str "1:a:0"]
      else [])
  ++ ffmpegArgs.map Tok.str
  ++ [Tok.str "-y", Tok.str outputPath]

/-- `create_clip_from_stream` returns `None` without building a command when
`not stream_urls or not stream_urls[0]` (utils.py lines 276-278); otherwise the
command of `buildClipCmd` is executed. -/
def create_clip_from_stream (streamUrls : Option (Option String × Option String))
    (start endTime : ℚ) (ffmpegArgs : List String) (outputPath : String) :
    Option (List Tok) :=
  match streamUrls with
  | none => none
  | some (videoUrl, audioUrl) =>
    if strTruthy videoUrl then
      some (buildClipCmd (videoUrl.getD "") audioUrl start endTime ffmpegArgs outputPath)
    else none

/-- The numeric values attached to `-ss` flags of a command, in order. -/
def ssValues : List Tok → List ℚ
  | Tok.str s :: Tok.num q :: rest =>
    (if s = "-ss" then [q] else []) ++ ssValues (Tok.num q :: rest)
  | _ :: rest => ssValues rest
  | [] => []

/-- The numeric values attached to `-t` flags of a command, in order. -/
def tValues : List Tok → List ℚ
  | Tok.str s :: Tok.num q :: rest =>
    (if s = "-t" then [q] else []) ++ tValues (Tok.num q :: rest)
  | _ :: rest => tValues rest
  | [] => []

lemma ssValues_str_str (a b : String) (l : List Tok) :
    ssValues (Tok.str a :: Tok.str b :: l) = ssValues (Tok.str b :: l) := by
  simp [ssValues]

lemma ssValues_num (q : ℚ) (l : List Tok) :
    ssValues (Tok.num q :: l) = ssValues l := by
  cases l with
  | nil => simp [ssValues]
  | cons t rest => cases t <;> simp [ssValues]

lemma ssValues_ss (q : ℚ) (l : List Tok) :
    ssValues (Tok.str "-ss" :: Tok.num q :: l) = q :: ssValues (Tok.num q :: l) := by
  simp [ssValues]

lemma ssValues_str_num (a : String) (h : a ≠ "-ss") (q : ℚ) (l : List Tok) :
    ssValues (Tok.str a :: Tok.num q :: l) = ssValues (Tok.num q :: l) := by
  simp [ssValues, h]

lemma ssValues_single (t : Tok) : ssValues [t] = [] := by
  cases t <;> simp [ssValues]

/-- A list without numeric tokens contributes no `-ss` values. -/
lemma ssValues_noNum : ∀ l : List Tok, (∀ q : ℚ, Tok.num q ∉ l) → ssValues l = []
  | [], _ => rfl
  | [t], h => by
    cases t with
    | str s => exact ssValues_single _
    | num q => exact absurd (by simp) (h q)
  | t1 :: t2 :: rest, h => by
    cases t1 with
    | num q => exact absurd (by simp) (h q)
    | str a =>
      cases t2 with
      | num q => exact absurd (by simp) (h q)
      | str b =>
        rw [ssValues_str_str]
        exact ssValues_noNum (Tok.str b :: rest)
          (fun q hq => h q (by simp at hq ⊢; tauto))

lemma tValues_str_str (a b : String) (l : List Tok) :
    tValues (Tok.str a :: Tok.str b :: l) = tValues (Tok.str b :: l) := by
  simp [tValues]

lemma tValues_num (q : ℚ) (l : List Tok) :
    tValues (Tok.num q :: l) = tValues l := by
  cases l with
  | nil => simp [tValues]
  | cons t rest => cases t <;> simp [tValues]

lemma tValues_t (q : ℚ) (l : List Tok) :
    tValues (Tok.str "-t" :: Tok.num q :: l) = q :: tValues (Tok.num q :: l) := by
  simp [tValues]

lemma tValues_str_num (a : String) (h : a ≠ "-t") (q : ℚ) (l : List Tok) :
    tValues (Tok.str a :: Tok.num q :: l) = tValues (Tok.num q :: l) := by
  simp [tValues, h]

lemma tValues_single (t : Tok) : tValues [t] = [] := by
  cases t <;> simp [tValues]

/-- A list without numeric tokens contributes no `-t` values. -/
lemma tValues_noNum : ∀ l : List Tok, (∀ q : ℚ, Tok.num q ∉ l) → tValues l = []
  | [], _ => rfl
  | [t], h => by
    cases t with
    | str s => exact tValues_single _
    | num q => exact absurd (by simp) (h q)
  | t1 :: t2 :: rest, h => by
    cases t1 with
    | num q => exact absurd (by simp) (h q)
    | str a =>
      cases t2 with
      | num q => exact absurd (by simp) (h q)
      | str b =>
        rw [tValues_str_str]
        exact tValues_noNum (Tok.str b :: rest)
          (fun q hq => h q (by simp at hq ⊢; tauto))

/-- The `-ss` values of the built command: coarse seek once per input, then the
accurate seek; the `-t` value is the planned duration, once. -/
lemma ssValues_buildClipCmd (v : String) (a : Option String) (s e : ℚ)
    (args : List String) (o : String) :
    ssValues (buildClipCmd v a s e args o) =
      (if strTruthy a then
        [fast_seek_time s, fast_seek_time s, accurate_seek_offset s]
      else [fast_seek_time s, accurate_seek_offset s]) ∧
    tValues (buildClipCmd v a s e args o) = [clipDuration s e] := by
  unfold buildClipCmd
  by_cases hA : strTruthy a
  · have h1 : ssValues (Tok.str "-map" :: Tok.str "0:v:0" :: Tok.str "-map" ::
        Tok.str "1:a:0" :: (List.map Tok.str args ++ [Tok.str "-y", Tok.str o])) = [] :=
      ssValues_noNum _ (by intro q hq; simp at hq)
    have h2 : tValues (Tok.str "-map" :: Tok.str "0:v:0" :: Tok.str "-map" ::
        Tok.str "1:a:0" :: (List.map Tok.str args ++ [Tok.str "-y", Tok.str o])) = [] :=
      tValues_noNum _ (by intro q hq; simp at hq)
    simp only [hA, if_true, List.cons_append, List.nil_append, List.append_assoc]
    constructor
    · rw [ssValues_str_str, ssValues_str_str, ssValues_ss, ssValues_num,
          ssValues_str_str, ssValues_str_str, ssValues_ss, ssValues_num,
          ssValues_str_str, ssValues_str_str, ssValues_ss, ssValues_num,
          ssValues_str_num "-t" (by decide), ssValues_num, h1]
    · rw [tValues_str_str, tValues_str_str, tValues_str_num "-ss" (by decide), tValues_num,
          tValues_str_str, tValues_str_str, tValues_str_num "-ss" (by decide), tValues_num,
          tValues_str_str, tValues_str_str, tValues_str_num "-ss" (by decide), tValues_num,
          tValues_t, tValues_num, h2]
  · have h1 : ssValues (List.map Tok.str args ++ [Tok.str "-y", Tok.str o]) = [] :=
      ssValues_noNum _ (by intro q hq; simp at hq)
    have h2 : tValues (List.map Tok.str args ++ [Tok.str "-y", Tok.str o]) = [] :=
      tValues_noNum _ (by intro q hq; simp at hq)
    simp only [hA, Bool.false_eq_true, if_false, List.cons_append, List.nil_append,
      List.append_assoc]
    constructor
    · rw [ssValues_str_str, ssValues_str_str, ssValues_ss, ssValues_num,
          ssValues_str_str, ssValues_str_str, ssValues_ss, ssValues_num,
          ssValues_str_num "-t" (by decide), ssValues_num, h1]
    · rw [tValues_str_str, tValues_str_str, tValues_str_num "-ss" (by decide), tValues_num,
          tValues_str_str, tValues_str_str, tValues_str_num "-ss" (by decide), tValues_num,
          tValues_t, tValues_num, h2]

/-- The accurate-seek branch in utils.py line 284 computes exactly `min(SEEK_BUFFER, start)`. -/
lemma accurate_seek_offset_eq_min (s : ℚ) :
    accurate_seek_offset s = min SEEK_BUFFER_SECONDS s := by
  unfold accurate_seek_offset
  rcases le_or_lt s SEEK_BUFFER_SECONDS with h | h
  · rw [if_neg (not_lt.mpr h), min_eq_right h]
  · rw [if_pos h, min_eq_left h.le]

/-- C4: for every clip request with `start_time < end_time`, the `-t` value passed to
the transcoder equals `(end_time - start_time) + CLIP_END_PADDING_SECONDS` with the
padding constant equal to `0.15`; for `start_time = 60`, `end_time = 90` the planned
duration is `30.15` seconds (`603/20`). -/
theorem C4_planned_duration (v : String) (a : Option String) (s e : ℚ)
    (args : List String) (o : String) (h : s < e) :
    tValues (buildClipCmd v a s e args o) = [(e - s) + CLIP_END_PADDING_SECONDS] ∧
    CLIP_END_PADDING_SECONDS = 15 / 100 ∧
    clipDuration 60 90 = 603 / 20 := by
  refine ⟨(ssValues_buildClipCmd v a s e args o).2, rfl, by norm_num [clipDuration, CLIP_END_PADDING_SECONDS]⟩

/-- C4 witness: the theorem applied at the concrete scenario `start = 60 < 90 = end`. -/
theorem C4_planned_duration_witness :
    (60 : ℚ) < 90 ∧
    (tValues (buildClipCmd "https://v" (some "https://a") 60 90 ["-c:v", "libx264"] "clip 1-x.mkv") =
        [(90 - 60) + CLIP_END_PADDING_SECONDS] ∧
      CLIP_END_PADDING_SECONDS = 15 / 100 ∧
      clipDuration 60 90 = 603 / 20) :=
  ⟨by norm_num,
   C4_planned_duration "https://v" (some "https://a") 60 90 ["-c:v", "libx264"] "clip 1-x.mkv"
     (by norm_num)⟩

/-- C5: in every built transcode command the coarse seek (the first `-ss` value,
placed before the inputs) equals `max(0, start - SEEK_BUFFER)` and the accurate seek
(the last `-ss` value, placed after the inputs) equals `min(SEEK_BUFFER, start)`,
with `SEEK_BUFFER = 5.0`; for `start = 60` these are `55.0` and `5.0`. -/
theorem C5_two_stage_seek (v : String) (a : Option String) (s e : ℚ)
    (args : List String) (o : String) :
    ssValues (buildClipCmd v a s e args o) =
      (if strTruthy a then
        [max 0 (s - SEEK_BUFFER_SECONDS), max 0 (s - SEEK_BUFFER_SECONDS),
         min SEEK_BUFFER_SECONDS s]
      else [max 0 (s - SEEK_BUFFER_SECONDS), min SEEK_BUFFER_SECONDS s]) ∧
    SEEK_BUFFER_SECONDS = 5 ∧
    fast_seek_time 60 = 55 ∧ accurate_seek_offset 60 = 5 := by
  refine ⟨?_, rfl, ?_, ?_⟩
  · rw [(ssValues_buildClipCmd v a s e args o).1]
    simp only [fast_seek_time, accurate_seek_offset_eq_min]
  · norm_num [fast_seek_time, SEEK_BUFFER_SECONDS]
  · norm_num [accurate_seek_offset, SEEK_BUFFER_SECONDS]

/-- C10: for every start time `s ≥ 0` the coarse seek is non-negative and, in exact
arithmetic, coarse seek plus accurate seek offset equals `s`: the pair is
`(s - 5, 5)` when `s > SEEK_BUFFER` and `(0, s)` otherwise. -/
theorem C10_seek_decomposition (s : ℚ) (h : 0 ≤ s) :
    0 ≤ fast_seek_time s ∧
    fast_seek_time s + accurate_seek_offset s = s ∧
    (s > SEEK_BUFFER_SECONDS →
      fast_seek_time s = s - 5 ∧ accurate_seek_offset s = 5) ∧
    (¬ s > SEEK_BUFFER_SECONDS →
      fast_seek_time s = 0 ∧ accurate_seek_offset s = s) := by
  have h5 : SEEK_BUFFER_SECONDS = 5 := rfl
  unfold fast_seek_time accurate_seek_offset
  rcases le_or_lt s SEEK_BUFFER_SECONDS with hle | hgt
  · have hmax : max 0 (s - SEEK_BUFFER_SECONDS) = 0 :=
      max_eq_left (by rw [h5] at hle ⊢; linarith)
    rw [hmax, if_neg (not_lt.mpr hle)]
    exact ⟨le_refl 0, by ring, fun hc => absurd hc (not_lt.mpr hle),
      fun _ => ⟨rfl, rfl⟩⟩
  · have hmax : max 0 (s - SEEK_BUFFER_SECONDS) = s - SEEK_BUFFER_SECONDS :=
      max_eq_right (by rw [h5] at hgt ⊢; linarith)
    rw [hmax, if_pos hgt]
    refine ⟨by rw [h5] at hgt ⊢; linarith, by ring, fun _ => ⟨by rw [h5], by rw [h5]⟩,
      fun hc => absurd hgt hc⟩

/-- C10 witness: the theorem applied at `s = 60` (and the `s > 5` branch realized). -/
theorem C10_seek_decomposition_witness :
    (0 : ℚ) ≤ 60 ∧
    (0 ≤ fast_seek_time 60 ∧
     fast_seek_time 60 + accurate_seek_offset 60 = 60 ∧
     ((60 : ℚ) > SEEK_BUFFER_SECONDS →
       fast_seek_time 60 = 60 - 5 ∧ accurate_seek_offset 60 = 5) ∧
     (¬ (60 : ℚ) > SEEK_BUFFER_SECONDS →
       fast_seek_time 60 = 0 ∧ accurate_seek_offset 60 = 60)) :=
  ⟨by norm_num, C10_seek_decomposition 60 (by norm_num)⟩

/-- Number of occurrences of a token in a command. -/
def countTok (t : Tok) : List Tok → Nat
  | [] => 0
  | x :: rest => (if x = t then 1 else 0) + countTok t rest

lemma countTok_append (t : Tok) (l1 l2 : List Tok) :
    countTok t (l1 ++ l2) = countTok t l1 + countTok t l2 := by
  induction l1 with
  | nil => simp [countTok]
  | cons x rest ih => simp [countTok, ih]; ring

lemma countTok_eq_zero_iff (t : Tok) (l : List Tok) :
    countTok t l = 0 ↔ t ∉ l := by
  induction l with
  | nil => simp [countTok]
  | cons x rest ih =>
    by_cases hx : x = t
    · subst hx; simp [countTok]
    · simp [countTok, hx, ih, Ne.symm hx]

lemma countTok_map_str_zero (x : String) (args : List String) (h : x ∉ args) :
    countTok (Tok.str x) (args.map Tok.str) = 0 := by
  rw [countTok_eq_zero_iff]
  intro hmem
  rw [List.mem_map] at hmem
  obtain ⟨y, hy, hyx⟩ := hmem
  exact h (by
    have : y = x := by injection hyx
    rwa [this] at hy)

/-- The explicit stream-mapping tokens `-map 0:v:0 -map 1:a:0` (utils.py line 297). -/
def MAP_TOKENS : List Tok :=
  [Tok.str "-map", Tok.str "0:v:0", Tok.str "-map", Tok.str "1:a:0"]

/-- C6: the built command contains the explicit stream-mapping tokens
`-map 0:v:0 -map 1:a:0` (as a contiguous run) if and only if a separate audio URL
is present (truthy) in the stream-URL pair, and it contains a second `-i` input
exactly in that case — with a single muxed URL there is exactly one input and no
`-map` token at all.  The hypotheses only rule out URL/argument strings that
collide with the literal flags. -/
theorem C6_mapping_iff_separate_audio (v : String) (a : Option String) (s e : ℚ)
    (args : List String) (o : String)
    (hargsMap : "-map" ∉ args) (hargsI : "-i" ∉ args)
    (hv : v ≠ "-map") (hvi : v ≠ "-i")
    (ha : a.getD "" ≠ "-map") (hai : a.getD "" ≠ "-i")
    (ho : o ≠ "-map") (hoi : o ≠ "-i") :
    (MAP_TOKENS <:+: buildClipCmd v a s e args o ↔ strTruthy a = true) ∧
    countTok (Tok.str "-i") (buildClipCmd v a s e args o) =
      (if strTruthy a then 2 else 1) ∧
    (strTruthy a = false →
      countTok (Tok.str "-map") (buildClipCmd v a s e args o) = 0) := by
  have hmapCount : countTok (Tok.str "-map") (buildClipCmd v a s e args o) =
      (if strTruthy a then 2 else 0) := by
    unfold buildClipCmd
    by_cases hA : strTruthy a <;>
      simp [hA, countTok_append, countTok, hv, ha, ho,
        countTok_map_str_zero "-map" args hargsMap]
  have hiCount : countTok (Tok.str "-i") (buildClipCmd v a s e args o) =
      (if strTruthy a then 2 else 1) := by
    unfold buildClipCmd
    by_cases hA : strTruthy a <;>
      simp [hA, countTok_append, countTok, hvi, hai, hoi,
        countTok_map_str_zero "-i" args hargsI]
  refine ⟨⟨fun hinf => ?_, fun hA => ?_⟩, hiCount, fun hA => by rw [hmapCount, hA]; simp⟩
  · by_contra hA
    have hA' : strTruthy a = false := by
      cases hS : strTruthy a
      · rfl
      · exact absurd hS hA
    have hmem : Tok.str "-map" ∈ buildClipCmd v a s e args o :=
      hinf.subset (by simp [MAP_TOKENS])
    have := (countTok_eq_zero_iff (Tok.str "-map") (buildClipCmd v a s e args o)).mp
      (by rw [hmapCount, hA']; simp)
    exact this hmem
  · have hcmd : buildClipCmd v a s e args o =
        ([Tok.str "ffmpeg", Tok.str "-nostats", Tok.str "-ss",
          Tok.num (fast_seek_time s), Tok.str "-i", Tok.str v,
          Tok.str "-ss", Tok.num (fast_seek_time s), Tok.str "-i", Tok.str (a.getD ""),
          Tok.str "-ss", Tok.num (accurate_seek_offset s), Tok.str "-t",
          Tok.num (clipDuration s e)]) ++ MAP_TOKENS ++
        (args.map Tok.str ++ [Tok.str "-y", Tok.str o]) := by
      unfold buildClipCmd
      rw [hA]
      simp [MAP_TOKENS]
    rw [hcmd]
    exact List.infix_append _ _ _

/-- C6 witness: the theorem applied with realistic URLs and encoder arguments, in
the separate-audio case. -/
theorem C6_mapping_iff_separate_audio_witness :
    (MAP_TOKENS <:+:
        buildClipCmd "https://v" (some "https://a") 60 90 ["-c:v", "libx264"] "clip 1-x.mkv" ↔
      strTruthy (some "https://a") = true) ∧
    countTok (Tok.str "-i")
        (buildClipCmd "https://v" (some "https://a") 60 90 ["-c:v", "libx264"] "clip 1-x.mkv") =
      (if strTruthy (some "https://a") then 2 else 1) ∧
    (strTruthy (some "https://a") = false →
      countTok (Tok.str "-map")
          (buildClipCmd "https://v" (some "https://a") 60 90 ["-c:v", "libx264"] "clip 1-x.mkv") = 0) :=
  C6_mapping_iff_separate_audio "https://v" (some "https://a") 60 90 ["-c:v", "libx264"]
    "clip 1-x.mkv" (by decide) (by decide) (by decide) (by decide) (by decide) (by decide)
    (by decide) (by decide)

/-- Mutable printing state of `UtilsProgress`: `_last_printed_percent` starts at
`-1.0` and `_last_update_time` at `0.0` (utils.py lines 44-46). -/
structure ProgState where
  lastPercent : ℚ
  lastTime : ℚ
deriving DecidableEq, Repr

/-- Initial printing state set in `UtilsProgress.__init__`. -/
def initProgState : ProgState := ⟨-1, 0⟩

/-- One call of `UtilsProgress._print_progress` (utils.py lines 15-26): skip the
update (return `false`) exactly when the percent advanced by less than 1, is below
100, less than 0.1 s elapsed since the last emission, and this is not the first
call; otherwise record the new percent/time and emit (return `true`). -/
def printProgress (st : ProgState) (percent now : ℚ) : ProgState × Bool :=
  if percent - st.lastPercent < 1 ∧ percent < 100 ∧
      now - st.lastTime < 1 / 10 ∧ st.lastPercent ≠ -1 then
    (st, false)
  else
    (⟨percent, now⟩, true)

/-- `h * 3600 + m * 60 + s + hs / 100` as parsed from a `HH:MM:SS.hh` timestamp
match in `_execute_with_stderr_parse` (utils.py lines 196-203). -/
def timeToSeconds (h m s hs : ℕ) : ℚ :=
  h * 3600 + m * 60 + s + (hs : ℚ) / 100

/-- `percent = min(100, (current_time / total_duration) * 100) if total > 0 else 0`
(utils.py line 204). -/
def percentOf (current total : ℚ) : ℚ :=
  if total > 0 then min 100 (current / total * 100) else 0

/-- C2 counterexample: starting from the initial state, a sample at percent 50 is
emitted, and 1 second later a sample at percent 30 is emitted as well (the 0.1 s
throttle-window clause of `_print_progress` fires), so a sample can be emitted
whose percent is not strictly ahead of — indeed is below — the previously emitted
percent, refuting the claimed emission condition and the non-decreasing sequence. -/
theorem C2_progress_not_monotone_counterexample :
    printProgress initProgState 50 1 = (⟨50, 1⟩, true) ∧
    printProgress ⟨50, 1⟩ 30 2 = (⟨30, 2⟩, true) ∧
    (30 : ℚ) < 50 := by
  refine ⟨?_, ?_, by norm_num⟩
  · rw [printProgress, if_neg]
    rintro ⟨-, -, -, habs⟩
    exact habs (by norm_num [initProgState])
  · rw [printProgress, if_neg]
    rintro ⟨-, -, habs, -⟩
    norm_num at habs

/-- C2 amended: every percent computed by the stderr parser lies in `[0, 100]`, and
within the 0.1 s throttle window (not the first sample, percent below 100) a sample
is emitted only when the percent advanced by at least 1 over the previously emitted
sample; but a sample is also emitted — regardless of advancement — once 0.1 s have
elapsed, so the emitted percent sequence need not be non-decreasing. -/
theorem C2_progress_amended (st : ProgState) (percent now : ℚ)
    (hemit : (printProgress st percent now).2 = true)
    (hwin : now - st.lastTime < 1 / 10)
    (hfirst : st.lastPercent ≠ -1)
    (hlt : percent < 100) :
    1 ≤ percent - st.lastPercent ∧
    ∀ h m s hs : ℕ, ∀ total : ℚ,
      0 ≤ percentOf (timeToSeconds h m s hs) total ∧
      percentOf (timeToSeconds h m s hs) total ≤ 100 := by
  constructor
  · by_contra hadv
    rw [printProgress, if_pos ⟨by linarith, hlt, hwin, hfirst⟩] at hemit
    simp at hemit
  · intro h m s hs total
    have hcur : 0 ≤ timeToSeconds h m s hs := by
      unfold timeToSeconds
      positivity
    unfold percentOf
    by_cases htot : total > 0
    · rw [if_pos htot]
      constructor
      · apply le_min (by norm_num)
        positivity
      · exact min_le_left _ _
    · rw [if_neg htot]
      norm_num

/-- C2 amended witness: an emission inside the throttle window with an advance of
exactly 10 percent, plus the `[0,100]` bound evaluated at a concrete timestamp. -/
theorem C2_progress_amended_witness :
    ((printProgress ⟨10, 0⟩ 20 (1 / 20)).2 = true ∧
      (1 / 20 : ℚ) - (ProgState.mk 10 0).lastTime < 1 / 10 ∧
      (ProgState.mk 10 0).lastPercent ≠ -1 ∧ (20 : ℚ) < 100) ∧
    (1 ≤ (20 : ℚ) - (ProgState.mk 10 0).lastPercent ∧
      ∀ h m s hs : ℕ, ∀ total : ℚ,
        0 ≤ percentOf (timeToSeconds h m s hs) total ∧
        percentOf (timeToSeconds h m s hs) total ≤ 100) :=
  ⟨⟨by rw [printProgress, if_neg]; rintro ⟨habs, -⟩; norm_num at habs,
    by norm_num, by norm_num, by norm_num⟩,
   C2_progress_amended ⟨10, 0⟩ 20 (1 / 20)
     (by rw [printProgress, if_neg]; rintro ⟨habs, -⟩; norm_num at habs)
     (by norm_num) (by norm_num) (by norm_num)⟩

/-- Outcome of one hardware-encoder probe (`subprocess.run(..., check=True)` in
`_get_video_encoder_args`): `ok` for exit status zero, `err` for a raised
`CalledProcessError` or `FileNotFoundError`, both of which the code catches. -/
inductive ProbeResult where
  | ok
  | err
deriving DecidableEq, Repr

/-- The host's hardware-probe outcomes, one per backend tried by
`_get_video_encoder_args` (utils.py lines 76-141), in the code's priority order. -/
structure HwEnv where
  nvenc : ProbeResult
  qsv : ProbeResult
  amf : ProbeResult
  videotoolbox : ProbeResult
deriving DecidableEq, Repr

/-- NVENC video arguments (utils.py lines 84-90). -/
def NVENC_ARGS : List String :=
  ["-c:v", "h264_nvenc", "-preset", "p4", "-cq", "23", "-rc", "vbr", "-pix_fmt", "yuv420p"]

/-- QSV video arguments (utils.py lines 102-107). -/
def QSV_ARGS : List String :=
  ["-c:v", "h264_qsv", "-global_quality", "23", "-preset", "veryfast", "-pix_fmt", "nv12"]

/-- AMF video arguments (utils.py lines 119-123). -/
def AMF_ARGS : List String :=
  ["-c:v", "h264_amf", "-quality", "2", "-pix_fmt", "yuv420p"]

/-- VideoToolbox video arguments (utils.py lines 135-139). -/
def VIDEOTOOLBOX_ARGS : List String :=
  ["-c:v", "h264_videotoolbox", "-b:v", "4M", "-pix_fmt", "yuv420p"]

/-- CPU fallback video arguments (utils.py lines 145-149), returned
unconditionally when every hardware probe fails. -/
def CPU_ARGS : List String :=
  ["-c:v", "libx264", "-preset", "ultrafast", "-pix_fmt", "yuv420p"]

/-- `UtilsProgress._get_video_encoder_args` (utils.py lines 71-149): try the
backends in priority order, return the arguments of the first succeeding probe or
the CPU fallback; the second component counts how many probe processes were
executed on this call (each failing probe still ran once). -/
def getVideoEncoderArgs (hw : HwEnv) : List String × ℕ :=
  if hw.nvenc = ProbeResult.ok then (NVENC_ARGS, 1)
  else if hw.qsv = ProbeResult.ok then (QSV_ARGS, 2)
  else if hw.amf = ProbeResult.ok then (AMF_ARGS, 3)
  else if hw.videotoolbox = ProbeResult.ok then (VIDEOTOOLBOX_ARGS, 4)
  else (CPU_ARGS, 4)

/-- `['-r', '30', '-vsync', 'cfr']` (utils.py line 163). -/
def FPS_ARGS : List String := ["-r", "30", "-vsync", "cfr"]

/-- `UtilsProgress.AAC_AUDIO_ARGS` (utils.py lines 52-56). -/
def AAC_AUDIO_ARGS : List String := ["-c:a", "aac", "-ar", "44100", "-b:a", "192k"]

/-- The common arguments of `get_clip_creation_args` (utils.py lines 165-170). -/
def COMMON_ARGS : List String :=
  ["-avoid_negative_ts", "make_zero", "-fflags", "+genpts+igndts",
   "-map_metadata", "0", "-threads", "0"]

/-- The full argument list `fps_args + video_args + AAC_AUDIO_ARGS + common_args`
computed by `get_clip_creation_args` (utils.py line 173). -/
def fullClipArgs (hw : HwEnv) : List String :=
  FPS_ARGS ++ (getVideoEncoderArgs hw).1 ++ AAC_AUDIO_ARGS ++ COMMON_ARGS

/-- `UtilsProgress.get_clip_creation_args` (utils.py lines 151-177) as a state
transition on the class-level cache `_cached_ffmpeg_clip_args`: if the cache is
set, return it and run no probe; otherwise run the probes, assemble, cache and
return.  The third component counts probe processes executed by this call. -/
def get_clip_creation_args (hw : HwEnv) (cache : Option (List String)) :
    List String × Option (List String) × ℕ :=
  match cache with
  | some args => (args, some args, 0)
  | none =>
    let va := getVideoEncoderArgs hw
    let args := FPS_ARGS ++ va.1 ++ AAC_AUDIO_ARGS ++ COMMON_ARGS
    (args, some args, va.2)

/-- `n` successive calls of `get_clip_creation_args` starting from a given cache
state: the list of returned argument lists and the total number of probe
processes executed. -/
def clipArgsCalls (hw : HwEnv) : Option (List String) → ℕ → List (List String) × ℕ
  | _, 0 => ([], 0)
  | cache, n + 1 =>
    let r := get_clip_creation_args hw cache
    let rest := clipArgsCalls hw r.2.1 n
    (r.1 :: rest.1, r.2.2 + rest.2)

lemma clipArgsCalls_cached (hw : HwEnv) (args : List String) :
    ∀ n, clipArgsCalls hw (some args) n = (List.replicate n args, 0)
  | 0 => rfl
  | n + 1 => by
    simp [clipArgsCalls, get_clip_creation_args, clipArgsCalls_cached hw args n,
      List.replicate_succ]

/-- C9: over any number `n + 1 ≥ 1` of calls, the hardware probes are executed
exactly as often as on a single call (the first call caches, every later call
returns the cache and probes zero times), at most 4 probes in total; every call
returns the identical argument list; and when every hardware probe fails the
returned list is the CPU (libx264) fallback profile — the selection never fails. -/
theorem C9_encoder_profile_memoized (hw : HwEnv) (n : ℕ) :
    (clipArgsCalls hw none (n + 1)).2 = (clipArgsCalls hw none 1).2 ∧
    (clipArgsCalls hw none 1).2 ≤ 4 ∧
    (clipArgsCalls hw none (n + 1)).1 = List.replicate (n + 1) (fullClipArgs hw) ∧
    (hw.nvenc ≠ ProbeResult.ok → hw.qsv ≠ ProbeResult.ok → hw.amf ≠ ProbeResult.ok →
      hw.videotoolbox ≠ ProbeResult.ok →
      fullClipArgs hw = FPS_ARGS ++ CPU_ARGS ++ AAC_AUDIO_ARGS ++ COMMON_ARGS) := by
  have hstep : clipArgsCalls hw none (n + 1) =
      (fullClipArgs hw :: List.replicate n (fullClipArgs hw), (getVideoEncoderArgs hw).2) := by
    simp [clipArgsCalls, get_clip_creation_args, clipArgsCalls_cached, fullClipArgs]
  have hone : clipArgsCalls hw none 1 =
      ([fullClipArgs hw], (getVideoEncoderArgs hw).2) := by
    simp [clipArgsCalls, get_clip_creation_args, clipArgsCalls_cached, fullClipArgs]
  refine ⟨by rw [hstep, hone], ?_, by rw [hstep, List.replicate_succ], ?_⟩
  · rw [hone]
    unfold getVideoEncoderArgs
    split_ifs <;> norm_num
  · intro h1 h2 h3 h4
    unfold fullClipArgs getVideoEncoderArgs
    rw [if_neg h1, if_neg h2, if_neg h3, if_neg h4]

/-- C9 witness: the theorem applied to a host where every hardware probe fails,
over 3 calls: no probe re-execution after the first call and the CPU fallback. -/
theorem C9_encoder_profile_memoized_witness :
    ((clipArgsCalls ⟨ProbeResult.err, ProbeResult.err, ProbeResult.err, ProbeResult.err⟩
        none (2 + 1)).2 =
      (clipArgsCalls ⟨ProbeResult.err, ProbeResult.err, ProbeResult.err, ProbeResult.err⟩
        none 1).2 ∧
     (clipArgsCalls ⟨ProbeResult.err, ProbeResult.err, ProbeResult.err, ProbeResult.err⟩
        none 1).2 ≤ 4 ∧
     (clipArgsCalls ⟨ProbeResult.err, ProbeResult.err, ProbeResult.err, ProbeResult.err⟩
        none (2 + 1)).1 =
       List.replicate (2 + 1)
         (fullClipArgs ⟨ProbeResult.err, ProbeResult.err, ProbeResult.err, ProbeResult.err⟩) ∧
     ((HwEnv.mk ProbeResult.err ProbeResult.err ProbeResult.err ProbeResult.err).nvenc ≠
          ProbeResult.ok →
       (HwEnv.mk ProbeResult.err ProbeResult.err ProbeResult.err ProbeResult.err).qsv ≠
          ProbeResult.ok →
       (HwEnv.mk ProbeResult.err ProbeResult.err ProbeResult.err ProbeResult.err).amf ≠
          ProbeResult.ok →
       (HwEnv.mk ProbeResult.err ProbeResult.err ProbeResult.err ProbeResult.err).videotoolbox ≠
          ProbeResult.ok →
       fullClipArgs ⟨ProbeResult.err, ProbeResult.err, ProbeResult.err, ProbeResult.err⟩ =
         FPS_ARGS ++ CPU_ARGS ++ AAC_AUDIO_ARGS ++ COMMON_ARGS)) :=
  C9_encoder_profile_memoized
    ⟨ProbeResult.err, ProbeResult.err, ProbeResult.err, ProbeResult.err⟩ 2

/-- `needle` occurs at the head of the character list. -/
def charsLeadWith : List Char → List Char → Bool
  | [], _ => true
  | _ :: _, [] => false
  | a :: as, b :: bs => a = b && charsLeadWith as bs

/-- `needle` occurs somewhere in the character list (Python's `in` on strings). -/
def charsContain (needle : List Char) : List Char → Bool
  | [] => needle.isEmpty
  | b :: bs => charsLeadWith needle (b :: bs) || charsContain needle bs

/-- Python `needle in hay` for strings. -/
def strContains (hay needle : String) : Bool :=
  charsContain needle.toList hay.toList

/-- The link-expiry classifier `"403 Forbidden" in (e.stderr or "")`
(engine.py line 131); `e.stderr` may be `None`. -/
def has403 (stderr : Option String) : Bool :=
  strContains (stderr.getD "") "403 Forbidden"

/-- Outcome of one attempt of the per-task body in `run_clipsengine` (engine.py
lines 117-127): the attempt succeeds with `create_clip_from_stream`'s optional
result, raises `subprocess.CalledProcessError` carrying a captured stderr tail, or
raises any other exception.  The oracle abstracts the external process and network. -/
inductive AttemptOutcome where
  | success (created : Option String)
  | procError (stderr : Option String)
  | otherError
deriving DecidableEq, Repr

/-- Observable result of the retry loop for one task: how many attempts ran, the
file appended to `newly_created_files` (if any), the downloader's `video_info`
cache when the loop ends, and after which attempts the cache was cleared.  The
loop catches every exception (engine.py lines 129-143), so it always returns. -/
structure RetryResult where
  attemptsMade : ℕ
  createdFile : Option String
  finalInfo : Option ℕ
  clearedAfter : List ℕ
deriving DecidableEq, Repr

/-- `max_retries = 2` (engine.py line 115). -/
def max_retries : ℕ := 2

/-- The retry loop `for attempt in range(max_retries)` (engine.py lines 116-143):
on success break; on `CalledProcessError` whose stderr contains `403 Forbidden`
with attempts remaining, set `video_info = None` and continue; on any other
error, or on the final attempt, record failure and break.  `fuel` is the number
of remaining loop iterations, `attempt` the current 0-based index. -/
def retryGo (oracle : ℕ → Option ℕ → AttemptOutcome) :
    ℕ → ℕ → Option ℕ → RetryResult
  | 0, attempt, info => ⟨attempt, none, info, []⟩
  | fuel + 1, attempt, info =>
    match oracle attempt info with
    | AttemptOutcome.success created => ⟨attempt + 1, created, info, []⟩
    | AttemptOutcome.procError stderr =>
      if has403 stderr = true ∧ attempt < max_retries - 1 then
        let r := retryGo oracle fuel (attempt + 1) none
        ⟨r.attemptsMade, r.createdFile, r.finalInfo, attempt :: r.clearedAfter⟩
      else ⟨attempt + 1, none, info, []⟩
    | AttemptOutcome.otherError => ⟨attempt + 1, none, info, []⟩

/-- The whole retry loop for one task, starting from the engine's current
`video_info` cache state. -/
def run_retry (oracle : ℕ → Option ℕ → AttemptOutcome) (info0 : Option ℕ) :
    RetryResult :=
  retryGo oracle max_retries 0 info0

/-- C1: when every attempt raises a process error whose stderr tail contains
`403 Forbidden`, the loop makes exactly `max_retries = 2` attempts, clears the
cached descriptor after the first attempt (so the second attempt resolves afresh:
the final `video_info` is `None`), appends no created file (the job is failed),
and returns normally — every exception is caught, none propagates. -/
theorem C1_retry_bound_on_expiry (oracle : ℕ → Option ℕ → AttemptOutcome)
    (info0 : Option ℕ)
    (hall : ∀ a i, ∃ s, oracle a i = AttemptOutcome.procError s ∧ has403 s = true) :
    run_retry oracle info0 = ⟨max_retries, none, none, [0]⟩ := by
  obtain ⟨s0, h0, g0⟩ := hall 0 info0
  obtain ⟨s1, h1, g1⟩ := hall 1 none
  show retryGo oracle 2 0 info0 = ⟨max_retries, none, none, [0]⟩
  rw [show (2 : ℕ) = 1 + 1 from rfl, retryGo, h0]
  simp only [g0, max_retries]
  rw [if_pos ⟨trivial, by norm_num⟩, retryGo, h1]
  simp only [g1, max_retries]
  rw [if_neg (by norm_num)]

/-- C1 witness: a concrete oracle that fails every attempt with a stderr tail
containing the `403 Forbidden` marker, starting from a populated cache. -/
theorem C1_retry_bound_on_expiry_witness :
    run_retry
        (fun _ _ => AttemptOutcome.procError
          (some "Server returned 403 Forbidden (access denied)"))
        (some 7) =
      ⟨max_retries, none, none, [0]⟩ :=
  C1_retry_bound_on_expiry _ (some 7)
    (fun _ _ => ⟨some "Server returned 403 Forbidden (access denied)", rfl, rfl⟩)

/-- A clip descriptor from `clips_data` as consumed by `run_clipsengine`:
`clip['title']`, `clip['start_time']`, `clip['end_time']`. -/
structure ClipInfo where
  title : String
  start_time : ℚ
  end_time : ℚ
deriving DecidableEq, Repr

/-- The output directory (`clips_dir`) modelled as a partial map from file name
to file size in bytes. -/
abbrev FileSystem : Type := String → Option ℕ

/-- ASCII whitespace stripped by Python's `str.strip()`; after the sanitizing
filter only the plain space can actually remain. -/
def isStripSpace (c : Char) : Bool :=
  c = ' ' || c = '\t' || c = '\n' || c = '\r' || c = '\x0b' || c = '\x0c'

/-- Python's `str.strip()` on a character list: drop whitespace at both ends. -/
def stripChars (l : List Char) : List Char :=
  ((l.dropWhile isStripSpace).reverse.dropWhile isStripSpace).reverse

/-- The sanitized title (engine.py lines 62-65): keep alphanumeric characters,
spaces and underscores, strip surrounding whitespace, then truncate to 30
characters when longer. -/
def safe_title (title : String) : String :=
  let stripped := stripChars (title.toList.filter fun c => c.isAlphanum || c = ' ' || c = '_')
  (if stripped.length > 30 then stripped.take 30 else stripped).asString

/-- `base_filename = f"clip {index+1}-{safe_title}"` (engine.py line 67). -/
def base_filename (index : ℕ) (title : String) : String :=
  "clip " ++ toString (index + 1) ++ "-" ++ safe_title title

/-- The accepted container extensions probed in order (engine.py line 71). -/
def CLIP_EXTS : List String := [".mkv", ".mp4", ".webm"]

/-- One probe of the cache loop body (engine.py lines 72-75): the path is kept
when the file exists with size strictly greater than 1024 bytes. -/
def cacheProbe (fs : FileSystem) (base ext : String) : Option String :=
  match fs (base ++ ext) with
  | some size => if size > 1024 then some (base ++ ext) else none
  | none => none

/-- The `for ext in [...]` / `break` search for an existing output
(engine.py lines 70-75): the first extension whose probe succeeds wins. -/
def findExisting (fs : FileSystem) (base : String) : Option String :=
  CLIP_EXTS.findSome? (cacheProbe fs base)

/-- A pending task dict as appended in engine.py lines 85-88. -/
structure ClipTask where
  clip : ClipInfo
  output_path : String
  display_index : ℕ
  total_clips : ℕ
deriving DecidableEq, Repr

/-- The planning loop of `run_clipsengine` (engine.py lines 60-88): walk the
descriptors with their indices, appending cache hits to `existing_files` and
everything else to `tasks_to_run` with the canonical `.mkv` output path. -/
def planAux (fs : FileSystem) (total : ℕ) :
    ℕ → List ClipInfo → List String × List ClipTask
  | _, [] => ([], [])
  | index, clip :: rest =>
    let r := planAux fs total (index + 1) rest
    match findExisting fs (base_filename index clip.title) with
    | some p => (p :: r.1, r.2)
    | none =>
      (r.1, ⟨clip, base_filename index clip.title ++ ".mkv", index + 1, total⟩ :: r.2)

/-- The cache-splitting phase of `run_clipsengine`: `(existing_files, tasks_to_run)`. -/
def plan (clips : List ClipInfo) (fs : FileSystem) : List String × List ClipTask :=
  planAux fs clips.length 0 clips

/-- Python's `<` on strings: lexicographic comparison of code points. -/
def pyStrLtChars : List Char → List Char → Bool
  | [], [] => false
  | [], _ :: _ => true
  | _ :: _, [] => false
  | a :: as, b :: bs => if a = b then pyStrLtChars as bs else decide (a < b)

/-- Python's `a < b` on strings. -/
def pyStrLt (a b : String) : Bool := pyStrLtChars a.toList b.toList

/-- Python's `a <= b` on strings (`not (b < a)`), the order used by `sorted`. -/
def pyStrLe (a b : String) : Bool := !pyStrLt b a

/-- `sorted(files, key=lambda p: p.name)` (engine.py lines 92 and 145): Python
sorts path names lexicographically by code point. -/
def sortedByName (files : List String) : List String :=
  files.insertionSort fun a b => pyStrLe a b = true

/-- `mkv_files = sorted(existing_files + newly_created_files, key=lambda p: p.name)`
(engine.py line 145). -/
def mergedReport (existing created : List String) : List String :=
  sortedByName (existing ++ created)

/-- Observable outcome of `run_clipsengine`: a returned list of file paths, or an
uncaught exception propagating out of the call. -/
inductive RunOutcome where
  | files (paths : List String)
  | raised (message : String)
deriving DecidableEq, Repr

/-- The exception raised at engine.py lines 98-102: `Downloader(self.url,
cookies_path=..., video_info=...)` omits the constructor's required positional
parameter `output_dir` (downloader.py line 92), so Python raises `TypeError`
before the per-task loop; no enclosing `try` exists there.  (The `Downloader`
class also defines no `get_stream_urls` method, so the per-task loop could not
succeed even if construction did.) -/
def downloaderInitError : String :=
  "TypeError: Downloader.__init__ missing 1 required positional argument: output_dir"

/-- `CreateClipEngine.run_clipsengine` (engine.py lines 41-148) at the level of
observable control flow: empty input returns `[]`; with no pending tasks the
sorted cache hits are returned (line 92); otherwise execution reaches the
`Downloader` construction at line 98, which raises `TypeError` (see
`downloaderInitError`), and the exception propagates to the caller. -/
def run_clipsengine (clips : List ClipInfo) (fs : FileSystem) : RunOutcome :=
  if clips.isEmpty then RunOutcome.files []
  else if (plan clips fs).2.isEmpty then
    RunOutcome.files (sortedByName (plan clips fs).1)
  else RunOutcome.raised downloaderInitError

lemma cacheProbe_eval (fs : FileSystem) (base ext : String) (size : ℕ)
    (h : fs (base ++ ext) = some size) :
    cacheProbe fs base ext = if size > 1024 then some (base ++ ext) else none := by
  unfold cacheProbe
  rw [h]

lemma cacheProbe_none (fs : FileSystem) (base ext : String)
    (h : fs (base ++ ext) = none) : cacheProbe fs base ext = none := by
  unfold cacheProbe
  rw [h]

/-- The cache probe succeeds exactly when some accepted extension names a file
above the size threshold. -/
lemma findSome?_cacheProbe (fs : FileSystem) (base : String) :
    ∀ exts : List String,
      ((exts.findSome? (cacheProbe fs base)).isSome = true ↔
        ∃ ext ∈ exts, ∃ size, fs (base ++ ext) = some size ∧ size > 1024)
  | [] => by simp [List.findSome?_nil]
  | ext :: rest => by
    rw [List.findSome?_cons]
    cases hprobe : cacheProbe fs base ext with
    | some p =>
      simp only [Option.isSome_some, true_iff]
      cases hfs : fs (base ++ ext) with
      | none => rw [cacheProbe_none fs base ext hfs] at hprobe; exact absurd hprobe (by simp)
      | some size =>
        by_cases hsz : size > 1024
        · exact ⟨ext, by simp, size, hfs, hsz⟩
        · rw [cacheProbe_eval fs base ext size hfs, if_neg hsz] at hprobe
          exact absurd hprobe (by simp)
    | none =>
      rw [findSome?_cacheProbe fs base rest]
      constructor
      · rintro ⟨e, he, size, hfs, hsz⟩
        exact ⟨e, by simp [he], size, hfs, hsz⟩
      · rintro ⟨e, he, size, hfs, hsz⟩
        rcases List.mem_cons.mp he with rfl | he'
        · exfalso
          rw [cacheProbe_eval fs base e size hfs, if_pos hsz] at hprobe
          exact Option.noConfusion hprobe
        · exact ⟨e, he', size, hfs, hsz⟩

/-- The pending list of the planning loop is empty exactly when every descriptor
(paired with its running index) has a cache hit. -/
lemma planAux_pending_nil (fs : FileSystem) (total : ℕ) :
    ∀ (clips : List ClipInfo) (index : ℕ),
      (planAux fs total index clips).2 = [] ↔
      ∀ p ∈ clips.enumFrom index,
        (findExisting fs (base_filename p.1 p.2.title)).isSome = true
  | [], index => by simp [planAux]
  | clip :: rest, index => by
    rw [List.enumFrom_cons]
    cases hfind : findExisting fs (base_filename index clip.title) with
    | some p =>
      simp only [planAux, hfind]
      rw [planAux_pending_nil fs total rest (index + 1)]
      constructor
      · intro hall q hq
        rcases List.mem_cons.mp hq with rfl | hq'
        · simp [hfind]
        · exact hall q hq'
      · intro hall q hq
        exact hall q (by simp [hq])
    | none =>
      simp only [planAux, hfind]
      constructor
      · intro habs; exact absurd habs (by simp)
      · intro hall
        have := hall (index, clip) (by simp)
        rw [hfind] at this
        exact absurd this (by simp)

/-- C7: a descriptor is classified as cached exactly when a file at its
deterministic base filename with one of the extensions `.mkv`, `.mp4`, `.webm`
exists above 1024 bytes (the first listed matching extension is kept — in
particular an `.mkv` hit always wins), and the planner yields zero pending tasks
exactly when every descriptor has such a file — so a second run against a fully
populated output directory re-plans no work. -/
theorem C7_cache_probe_idempotent (clips : List ClipInfo) (fs : FileSystem) :
    (∀ base, (findExisting fs base).isSome = true ↔
      ∃ ext ∈ CLIP_EXTS, ∃ size, fs (base ++ ext) = some size ∧ size > 1024) ∧
    (∀ base size, fs (base ++ ".mkv") = some size → size > 1024 →
      findExisting fs base = some (base ++ ".mkv")) ∧
    ((plan clips fs).2 = [] ↔
      ∀ p ∈ clips.enum, (findExisting fs (base_filename p.1 p.2.title)).isSome = true) := by
  refine ⟨fun base => findSome?_cacheProbe fs base CLIP_EXTS, ?_, ?_⟩
  · intro base size hfs hsz
    unfold findExisting CLIP_EXTS
    rw [List.findSome?_cons, cacheProbe_eval fs base ".mkv" size hfs, if_pos hsz]
  · rw [show clips.enum = clips.enumFrom 0 from rfl]
    exact planAux_pending_nil fs clips.length clips 0

/-- C7 witness: the characterization applied to a concrete populated directory:
the probe classifies `clip 1-w1` as cached. -/
theorem C7_cache_probe_idempotent_witness :
    (findExisting (fun name => if name = "clip 1-w1.mkv" then some 2048 else none)
        "clip 1-w1").isSome = true :=
  ((C7_cache_probe_idempotent []
      (fun name => if name = "clip 1-w1.mkv" then some 2048 else none)).1
    "clip 1-w1").mpr
    ⟨".mkv", by simp [CLIP_EXTS], 2048, rfl, by norm_num⟩

/-- Ten clip descriptors with distinct short titles. -/
def clips10 : List ClipInfo :=
  [⟨"aa", 0, 1⟩, ⟨"bb", 0, 1⟩, ⟨"cc", 0, 1⟩, ⟨"dd", 0, 1⟩, ⟨"ee", 0, 1⟩,
   ⟨"ff", 0, 1⟩, ⟨"gg", 0, 1⟩, ⟨"hh", 0, 1⟩, ⟨"ii", 0, 1⟩, ⟨"jj", 0, 1⟩]

/-- The expected output names of `clips10`, in descriptor order. -/
def names10 : List String :=
  ["clip 1-aa.mkv", "clip 2-bb.mkv", "clip 3-cc.mkv", "clip 4-dd.mkv", "clip 5-ee.mkv",
   "clip 6-ff.mkv", "clip 7-gg.mkv", "clip 8-hh.mkv", "clip 9-ii.mkv", "clip 10-jj.mkv"]

/-- A directory holding every output of `clips10` above the size threshold. -/
def fs10 : FileSystem := fun name => if name ∈ names10 then some 2048 else none

lemma pyStrLtChars_asymm :
    ∀ a b : List Char, pyStrLtChars a b = true → pyStrLtChars b a = false
  | [], [] => by intro h; exact absurd h (by simp [pyStrLtChars])
  | [], _ :: _ => by intro h; rfl
  | _ :: _, [] => by intro h; exact absurd h (by simp [pyStrLtChars])
  | x :: xs, y :: ys => by
    intro h
    by_cases hxy : x = y
    · subst hxy
      rw [pyStrLtChars, if_pos rfl] at h ⊢
      exact pyStrLtChars_asymm xs ys h
    · rw [pyStrLtChars, if_neg hxy] at h
      rw [pyStrLtChars, if_neg (Ne.symm hxy)]
      have hlt : x < y := of_decide_eq_true h
      exact decide_eq_false (not_lt_of_lt hlt)

/-- Strict lexicographic comparison pushes through an intermediate list. -/
lemma pyStrLtChars_resolve :
    ∀ c a b : List Char, pyStrLtChars c a = true →
      pyStrLtChars c b = true ∨ pyStrLtChars b a = true
  | [], [], _ => by intro h; exact absurd h (by simp [pyStrLtChars])
  | [], _ :: _, [] => by intro h; exact Or.inr rfl
  | [], _ :: _, _ :: _ => by intro h; exact Or.inl rfl
  | _ :: _, [], _ => by
    intro h; exact absurd h (by simp [pyStrLtChars])
  | z :: zs, x :: xs, [] => by intro h; exact Or.inr rfl
  | z :: zs, x :: xs, y :: ys => by
    intro h
    by_cases hzx : z = x
    · subst hzx
      rw [pyStrLtChars, if_pos rfl] at h
      by_cases hzy : z = y
      · subst hzy
        rcases pyStrLtChars_resolve zs xs ys h with h1 | h1
        · exact Or.inl (by rw [pyStrLtChars, if_pos rfl]; exact h1)
        · exact Or.inr (by rw [pyStrLtChars, if_pos rfl]; exact h1)
      · rcases lt_or_gt_of_ne hzy with hlt | hgt
        · exact Or.inl (by rw [pyStrLtChars, if_neg hzy]; exact decide_eq_true hlt)
        · refine Or.inr ?_
          rw [pyStrLtChars, if_neg (ne_of_lt hgt)]
          exact decide_eq_true hgt
    · rw [pyStrLtChars, if_neg hzx] at h
      have hzxlt : z < x := of_decide_eq_true h
      by_cases hyz : y = z
      · subst hyz
        refine Or.inr ?_
        rw [pyStrLtChars, if_neg hzx]
        exact decide_eq_true hzxlt
      · rcases lt_or_gt_of_ne (Ne.symm hyz) with hlt | hgt
        · exact Or.inl (by rw [pyStrLtChars, if_neg (ne_of_lt hlt)]; exact decide_eq_true hlt)
        · have hyx : y < x := lt_trans hgt hzxlt
          refine Or.inr ?_
          rw [pyStrLtChars, if_neg (ne_of_lt hyx)]
          exact decide_eq_true hyx

lemma pyStrLe_total (a b : String) : pyStrLe a b = true ∨ pyStrLe b a = true := by
  unfold pyStrLe
  cases hba : pyStrLt b a with
  | false => exact Or.inl rfl
  | true =>
    refine Or.inr ?_
    unfold pyStrLt at hba ⊢
    rw [pyStrLtChars_asymm _ _ hba]
    rfl

lemma pyStrLe_trans (a b c : String) (hab : pyStrLe a b = true)
    (hbc : pyStrLe b c = true) : pyStrLe a c = true := by
  unfold pyStrLe pyStrLt at hab hbc ⊢
  cases hca : pyStrLtChars c.toList a.toList with
  | false => rfl
  | true =>
    rcases pyStrLtChars_resolve _ _ b.toList hca with h1 | h1
    · rw [h1] at hbc; exact absurd hbc (by simp)
    · rw [h1] at hab; exact absurd hab (by simp)

/-- C8 counterexample: with 10 descriptors whose outputs all pre-exist, the
planner's cached list is in descriptor order, but the merged report — sorted
lexicographically by file name (engine.py lines 92 and 145) — places
`clip 10-jj.mkv` second, between `clip 1-aa.mkv` and `clip 2-bb.mkv`: the
original descriptor ordering is not preserved in general. -/
theorem C8_merge_order_counterexample :
    (plan clips10 fs10).1 = names10 ∧
    mergedReport names10 [] ≠ names10 ∧
    mergedReport names10 [] =
      ["clip 1-aa.mkv", "clip 10-jj.mkv", "clip 2-bb.mkv", "clip 3-cc.mkv",
       "clip 4-dd.mkv", "clip 5-ee.mkv", "clip 6-ff.mkv", "clip 7-gg.mkv",
       "clip 8-hh.mkv", "clip 9-ii.mkv"] := by
  refine ⟨by decide, by decide, by decide⟩

/-- The claim's 3-descriptor scenario: only clip #2's output pre-exists. -/
def clips3 : List ClipInfo := [⟨"alpha", 0, 1⟩, ⟨"beta", 2, 3⟩, ⟨"gamma", 4, 5⟩]

/-- A directory holding only clip #2's output, above the size threshold. -/
def fs3 : FileSystem := fun name => if name = "clip 2-beta.mkv" then some 2048 else none

/-- C8 amended: the final merge sorts the union of cached and created files
lexicographically by file name — a sorted permutation of the inputs — which
coincides with descriptor order only when the lexicographic order of the
generated names matches the index order (it does for at most 9 clips, not in
general); in the 3-descriptor scenario with only clip #2 cached, planning yields
2 pending tasks and 1 cached file and the merged report is in original
descriptor order. -/
theorem C8_merge_sorted_by_name (e c : List String) :
    (mergedReport e c).Perm (e ++ c) ∧
    List.Sorted (fun a b : String => pyStrLe a b = true) (mergedReport e c) ∧
    (plan clips3 fs3).1 = ["clip 2-beta.mkv"] ∧
    (plan clips3 fs3).2.map ClipTask.output_path =
      ["clip 1-alpha.mkv", "clip 3-gamma.mkv"] ∧
    (plan clips3 fs3).2.map ClipTask.display_index = [1, 3] ∧
    mergedReport ["clip 2-beta.mkv"] ["clip 1-alpha.mkv", "clip 3-gamma.mkv"] =
      ["clip 1-alpha.mkv", "clip 2-beta.mkv", "clip 3-gamma.mkv"] := by
  haveI htot : IsTotal String (fun a b => pyStrLe a b = true) := ⟨pyStrLe_total⟩
  haveI htr : IsTrans String (fun a b => pyStrLe a b = true) := ⟨pyStrLe_trans⟩
  refine ⟨List.perm_insertionSort _ _, List.sorted_insertionSort _ _,
    by decide, by decide, by decide, by decide⟩

/-- C3 counterexample: with one non-cached descriptor and an empty output
directory, `run_clipsengine` does not return the cached files (here `[]`): the
`Downloader` construction at engine.py line 98 omits the required positional
argument `output_dir` of `Downloader.__init__` (downloader.py line 92), raising
`TypeError` outside any `try`, so the call raises instead of returning. -/
theorem C3_pending_run_raises_counterexample :
    run_clipsengine [⟨"solo", 0, 1⟩] (fun _ => none) =
      RunOutcome.raised downloaderInitError ∧
    run_clipsengine [⟨"solo", 0, 1⟩] (fun _ => none) ≠ RunOutcome.files [] := by
  have h : run_clipsengine [⟨"solo", 0, 1⟩] (fun _ => none) =
      RunOutcome.raised downloaderInitError := by decide
  refine ⟨h, ?_⟩
  rw [h]
  intro habs
  exact RunOutcome.noConfusion habs

/-- C3 amended: whenever planning leaves at least one pending task, the engine
raises the `Downloader` construction `TypeError` before the per-task loop — no
transcoder process is launched, no clip file is created, and the cached files
are not returned (the exception propagates to the caller).  (Had construction
succeeded, the per-task loop would still fail: `Downloader` defines no
`get_stream_urls` method.) -/
theorem C3_pending_run_raises (clips : List ClipInfo) (fs : FileSystem)
    (h : (plan clips fs).2 ≠ []) :
    run_clipsengine clips fs = RunOutcome.raised downloaderInitError := by
  have hclips : clips.isEmpty = false := by
    cases clips with
    | nil => exact absurd rfl h
    | cons a l => rfl
  unfold run_clipsengine
  rw [hclips]
  simp only [Bool.false_eq_true, if_false]
  rw [if_neg]
  intro habs
  exact h (by simpa using habs)

/-- C3 amended witness: one pending descriptor against an empty directory. -/
theorem C3_pending_run_raises_witness :
    run_clipsengine [⟨"solo2", 0, 1⟩] (fun _ => none) =
      RunOutcome.raised downloaderInitError :=
  C3_pending_run_raises [⟨"solo2", 0, 1⟩] (fun _ => none) (by decide)

end HSUAIClip
